import Mathlib

/-!
# A verification model of `src/bot.js` (TeleBot)

This file gives a shallow embedding of the reminder/report Telegram bot in
`src/bot.js` and proves properties of its session manager, deferred
scheduler, temporal resolver and message-handler flows.

Modelling conventions:

* Instants are local-clock milliseconds since the epoch, as natural numbers.
  The configured timezone (`Asia/Makassar`) is a fixed-offset zone with no
  DST, so `moment` day/hour arithmetic on local clock time is plain
  arithmetic on these numbers.  `moment.tz(TIMEZONE)` ("the current time")
  becomes an explicit `now : Nat` parameter; each handler runs at a single
  instant.
* JavaScript `Map` registries become association lists with
  replace-on-insert semantics (`AList.ins`).  Timer handles issued by
  `setTimeout` / `schedule.scheduleJob` are modelled by a counter of fresh
  handles plus a set of currently live (armed, not yet fired or cancelled)
  timers, so that "at most one live timer" is a genuine invariant and not a
  triviality of the map type.
* The external `chrono-node` natural-language parser is not part of this
  repository; its two uses in `parseIndoPrefer` (on the normalized and on
  the raw phrase) are abstracted as `Option Nat` oracle parameters.  All
  claims proved here are independent of these oracles.
* Strings are treated as their character lists; regular expressions from the
  source are implemented as explicit leftmost-match scanners over ASCII
  text (the phrases of interest are ASCII).
-/

set_option linter.unusedSectionVars false
set_option linter.unnecessarySimpa false
set_option linter.unreachableTactic false
set_option linter.unusedTactic false

namespace TeleBot

/-! ## Association lists (JavaScript `Map` registries) -/

namespace AList

variable {κ : Type} {α : Type} [DecidableEq κ]

/-- `Map.get(k)` (as `Option`). -/
def lk (l : List (κ × α)) (k : κ) : Option α :=
  (l.find? (fun p => decide (p.1 = k))).map (·.2)

/-- `Map.delete(k)`. -/
def ers (l : List (κ × α)) (k : κ) : List (κ × α) :=
  l.filter (fun p => decide (p.1 ≠ k))

/-- `Map.set(k, v)`: replace any previous binding of `k`. -/
def ins (l : List (κ × α)) (k : κ) (v : α) : List (κ × α) :=
  (k, v) :: ers l k

/-- The keys of the list are pairwise distinct. -/
def keysND (l : List (κ × α)) : Prop :=
  (l.map Prod.fst).Nodup

theorem lk_nil (k : κ) : lk ([] : List (κ × α)) k = none := rfl

theorem lk_cons (p : κ × α) (l : List (κ × α)) (k : κ) :
    lk (p :: l) k = if p.1 = k then some p.2 else lk l k := by
  by_cases h : p.1 = k <;> simp [lk, List.find?, h]

theorem ers_cons (p : κ × α) (l : List (κ × α)) (k : κ) :
    ers (p :: l) k = if p.1 = k then ers l k else p :: ers l k := by
  by_cases h : p.1 = k <;> simp [ers, List.filter_cons, h]

theorem lk_ers_self (l : List (κ × α)) (k : κ) : lk (ers l k) k = none := by
  induction l with
  | nil => rfl
  | cons p l ih =>
    rw [ers_cons]
    by_cases h : p.1 = k
    · simpa [h] using ih
    · rw [if_neg h, lk_cons, if_neg h]
      exact ih

theorem lk_ers_ne (l : List (κ × α)) (k k' : κ) (h : k' ≠ k) :
    lk (ers l k) k' = lk l k' := by
  induction l with
  | nil => rfl
  | cons p l ih =>
    rw [ers_cons, lk_cons]
    by_cases hp : p.1 = k
    · have hp' : p.1 ≠ k' := by rw [hp]; exact fun e => h e.symm
      rw [if_pos hp, if_neg hp']
      exact ih
    · rw [if_neg hp, lk_cons, ih]

theorem lk_ins_self (l : List (κ × α)) (k : κ) (v : α) :
    lk (ins l k v) k = some v := by
  simp [ins, lk_cons]

theorem lk_ins_ne (l : List (κ × α)) (k k' : κ) (v : α) (h : k' ≠ k) :
    lk (ins l k v) k' = lk l k' := by
  have hne : k ≠ k' := fun e => h e.symm
  simp [ins, lk_cons, hne, lk_ers_ne l k k' h]

theorem keysND_nil : keysND ([] : List (κ × α)) := by
  simp [keysND]

theorem keysND_cons (p : κ × α) (l : List (κ × α)) :
    keysND (p :: l) ↔ p.1 ∉ l.map Prod.fst ∧ keysND l := by
  rw [keysND, List.map_cons, List.nodup_cons, keysND]

theorem keysND_ers (l : List (κ × α)) (k : κ) (h : keysND l) :
    keysND (ers l k) := by
  induction l with
  | nil => simpa [ers] using h
  | cons p l ih =>
    rcases (keysND_cons p l).mp h with ⟨h1, h2⟩
    rw [ers_cons]
    by_cases hp : p.1 = k
    · rw [if_pos hp]
      exact ih h2
    · rw [if_neg hp]
      refine (keysND_cons p (ers l k)).mpr ⟨?_, ih h2⟩
      intro hm
      rcases List.mem_map.mp hm with ⟨q, hq, hq1⟩
      exact h1 (List.mem_map.mpr ⟨q, List.mem_of_mem_filter hq, hq1⟩)

theorem keysND_ins (l : List (κ × α)) (k : κ) (v : α) (h : keysND l) :
    keysND (ins l k v) := by
  refine (keysND_cons (k, v) (ers l k)).mpr ⟨?_, keysND_ers l k h⟩
  intro hm
  rcases List.mem_map.mp hm with ⟨q, hq, hq1⟩
  have hne := List.of_mem_filter hq
  simp only [decide_eq_true_eq] at hne
  exact hne hq1

theorem lk_mem (l : List (κ × α)) (k : κ) (v : α) (h : lk l k = some v) :
    (k, v) ∈ l := by
  induction l with
  | nil => simp [lk] at h
  | cons p l ih =>
    rw [lk_cons] at h
    by_cases hp : p.1 = k
    · rw [if_pos hp] at h
      have hpv : p = (k, v) := by
        cases p
        simp only [Option.some.injEq] at h
        simp_all
      rw [← hpv]
      exact List.mem_cons_self p l
    · rw [if_neg hp] at h
      exact List.mem_cons_of_mem p (ih h)

end AList

/-! ## Characters and case-insensitive scanning -/

/-- Whitespace as matched by the regex class `\s` (ASCII part). -/
def jsSpace (c : Char) : Bool :=
  c == ' ' || c == '\t' || c == '\n' || c == '\r' || c.toNat == 11 || c.toNat == 12

/-- A word character, the regex class `\w` (`[A-Za-z0-9_]`). -/
def wordChar (c : Char) : Bool :=
  c.isAlphanum || c == '_'

/-- Case-insensitive match of an input character `c` against a
lowercase pattern character `p` (the `i` regex flag, ASCII). -/
def ciEq (p c : Char) : Bool :=
  c == p || (decide ('a' ≤ p) && decide (p ≤ 'z') && c.toNat + 32 == p.toNat)

/-- Lowercase an ASCII character (`String.prototype.toLowerCase`, ASCII). -/
def lowerChar (c : Char) : Char :=
  if 'A' ≤ c ∧ c ≤ 'Z' then Char.ofNat (c.toNat + 32) else c

/-- Lowercase a string. -/
def lowerStr (s : String) : String :=
  String.mk (s.data.map lowerChar)

/-- Match the lowercase pattern `pat` case-insensitively at the start of
`cs`; on success return the rest of the input. -/
def dropPatCI : List Char → List Char → Option (List Char)
  | [], cs => some cs
  | _ :: _, [] => none
  | p :: ps, c :: cs => if ciEq p c then dropPatCI ps cs else none

/-- Does `pat` occur (case-insensitively) somewhere in `cs`?  Plain
substring test, no word boundaries (regexes such as `/besok/i`). -/
def hasSubCIAux (pat : List Char) : List Char → Bool
  | [] => (dropPatCI pat []).isSome
  | c :: cs => (dropPatCI pat (c :: cs)).isSome || hasSubCIAux pat cs

/-- `new RegExp(pat, "i").test(text)` for a literal pattern. -/
def testSubCI (pat text : String) : Bool :=
  hasSubCIAux pat.data text.data

/-- Does the pattern match here with `\b` boundaries on both sides?
`prev` is the character before the current position (if any). -/
def wordBoundedHere (pat : List Char) (prev : Option Char) (cs : List Char) : Bool :=
  (match prev with
   | none => true
   | some c => !wordChar c) &&
  (match dropPatCI pat cs with
   | some rest =>
     (match rest with
      | [] => true
      | c :: _ => !wordChar c)
   | none => false)

/-- Scan for a `\b pat \b` occurrence anywhere in the text. -/
def hasWordBoundedAux (pat : List Char) (prev : Option Char) : List Char → Bool
  | [] => wordBoundedHere pat prev []
  | c :: cs => wordBoundedHere pat prev (c :: cs) || hasWordBoundedAux pat (some c) cs

/-- `new RegExp("\\b" + pat + "\\b", "i").test(text)`. -/
def testWordCI (pat text : String) : Bool :=
  hasWordBoundedAux pat.data none text.data

/-- Numeric value of a decimal digit character. -/
def digitVal (c : Char) : Nat :=
  c.toNat - 48

/-- JS `trim` on the ASCII whitespace of interest. -/
def trimChars (cs : List Char) : List Char :=
  ((cs.dropWhile jsSpace).reverse.dropWhile jsSpace).reverse

/-- `String.prototype.trim()`. -/
def jsTrim (s : String) : String :=
  String.mk (trimChars s.data)

/-! ## Temporal resolver (`extractHourPreferToday`, `parseIndoPrefer`) -/

/-- The meridiem vocabulary of the hour regex in `extractHourPreferToday`:
`(pagi|siang|sore|malam|am|pm)` (morning, noon, afternoon, evening, am, pm). -/
inductive Meridiem where
  | pagi
  | siang
  | sore
  | malam
  | am
  | pm
deriving DecidableEq

/-- One day / hour / minute in milliseconds. -/
def dayMs : Nat := 86400000

def hourMs : Nat := 3600000

def minuteMs : Nat := 60000

/-- `moment.tz(TIMEZONE).hour(h).minute(m).second(0).millisecond(0)` keeps
the current local day and replaces the time of day; start of `now`'s day. -/
def startOfDay (now : Nat) : Nat :=
  now / dayMs * dayMs

/-- Hour shown by `format("HH")` for an instant with zero seconds. -/
def hhOf (t : Nat) : Nat :=
  t / hourMs % 24

/-- Minute shown by `format("mm")`. -/
def mmOf (t : Nat) : Nat :=
  t / minuteMs % 60

/-- Try the regex
`/(pukul|jam)\s*(\d{1,2})([:.](\d{2}))?\s*(pagi|siang|sore|malam|am|pm)?/i`
at the current position.  Returns the captured hour digits, the optional
minute digits, and the optional meridiem token. -/
def matchHourAt (cs : List Char) : Option (Nat × Option Nat × Option Meridiem) :=
  let r0 : Option (List Char) :=
    match dropPatCI "pukul".data cs with
    | some r => some r
    | none => dropPatCI "jam".data cs
  match r0 with
  | none => none
  | some r1 =>
    match r1.dropWhile jsSpace with
    | [] => none
    | c1 :: rest =>
      if c1.isDigit then
        let hr : Nat × List Char :=
          match rest with
          | c2 :: rest2 =>
            if c2.isDigit then (digitVal c1 * 10 + digitVal c2, rest2)
            else (digitVal c1, rest)
          | [] => (digitVal c1, [])
        let mr : Option Nat × List Char :=
          match hr.2 with
          | s :: d1 :: d2 :: rest4 =>
            if (s == ':' || s == '.') && d1.isDigit && d2.isDigit then
              (some (digitVal d1 * 10 + digitVal d2), rest4)
            else (none, hr.2)
          | _ => (none, hr.2)
        let r5 := mr.2.dropWhile jsSpace
        let mer : Option Meridiem :=
          if (dropPatCI "pagi".data r5).isSome then some .pagi
          else if (dropPatCI "siang".data r5).isSome then some .siang
          else if (dropPatCI "sore".data r5).isSome then some .sore
          else if (dropPatCI "malam".data r5).isSome then some .malam
          else if (dropPatCI "am".data r5).isSome then some .am
          else if (dropPatCI "pm".data r5).isSome then some .pm
          else none
        some (hr.1, mr.1, mer)
      else none

/-- Leftmost match of the hour regex over the whole text. -/
def findHourMatch : List Char → Option (Nat × Option Nat × Option Meridiem)
  | [] => none
  | c :: cs =>
    match matchHourAt (c :: cs) with
    | some r => some r
    | none => findHourMatch cs

/-- The 24-hour mapping applied to the matched hour in
`extractHourPreferToday` (the `if (meridiem) { ... }` chain). -/
def jsMeridiemHour (mer : Option Meridiem) (hour : Nat) : Nat :=
  match mer with
  | none => hour
  | some m =>
    if m = .pagi ∧ hour = 12 then 0
    else if (m = .siang ∨ m = .sore ∨ m = .malam) ∧ hour < 12 then hour + 12
    else if m = .pm ∧ hour < 12 then hour + 12
    else if m = .am ∧ hour = 12 then 0
    else hour

/-- `extractHourPreferToday(text)`: manual hour/minute extraction; builds
today's candidate at the resolved hour:minute (seconds and ms zeroed).
The minute defaults to 0 when the `[:.](\d{2})` group is absent. -/
def extractHourPreferToday (text : String) (now : Nat) : Option Nat :=
  match findHourMatch text.data with
  | none => none
  | some (h, minu, mer) =>
    let minute := minu.getD 0
    let hour := jsMeridiemHour mer h
    some (startOfDay now + hour * hourMs + minute * minuteMs)

/-- `/\bhari ini\b/i.test(text) || /\btoday\b/i.test(text)`. -/
def containsHariIni (text : String) : Bool :=
  testWordCI "hari ini" text || testWordCI "today" text

/-- `/tomorrow|besok|lusa/i.test(text)`. -/
def containsTomorrowWord (text : String) : Bool :=
  testSubCI "tomorrow" text || testSubCI "besok" text || testSubCI "lusa" text

/-- Result of `parseIndoPrefer`: a resolved instant, the
`time_passed_today` disambiguation signal carrying the candidate, or
`null` (time not recognized). -/
inductive IndoResult where
  | res (t : Nat)
  | timePassedToday (candidate : Nat)
  | unrecognized
deriving DecidableEq

/-- `parseIndoPrefer(text)`.  The two `chrono.parseDate` calls (external
`chrono-node` library, on `normalizeIndo(text)` and on the raw text) are
abstracted as the oracle parameters `chronoNorm` and `chronoRaw`. -/
def parseIndoPrefer (text : String) (now : Nat) (chronoNorm chronoRaw : Option Nat) :
    IndoResult :=
  match extractHourPreferToday text now with
  | some manual =>
    if now < manual then .res manual
    else if containsHariIni text then .timePassedToday manual
    else .res (manual + dayMs)
  | none =>
    match chronoNorm with
    | some p =>
      if p < now ∧ containsTomorrowWord text = false then .res (p + dayMs)
      else .res p
    | none =>
      match chronoRaw with
      | some p => .res p
      | none => .unrecognized

/-! ## Data model: notes (reminders) -/

/-- A row of the `notes` table: id, chat_id, text, reminder_at (nullable;
an invalid stored date behaves like NULL in `scheduleNoteJob`), reminded,
plus `status` which the flows here never read. -/
structure Note where
  id : Nat
  chatId : Int
  text : String
  reminderAt : Option Nat
  reminded : Bool
deriving DecidableEq

/-- `INSERT INTO notes (chat_id, text, reminder_at) VALUES (?, ?, ?)`;
ids are assigned by AUTOINCREMENT. -/
def insertNote (notes : List Note) (nextId : Nat) (chatId : Int) (text : String)
    (reminderAt : Option Nat) : List Note × Nat :=
  (notes ++ [⟨nextId, chatId, text, reminderAt, false⟩], nextId)

/-- `SELECT * FROM notes WHERE id = ? AND chat_id = ?`. -/
def getNoteById (notes : List Note) (id : Nat) (chatId : Int) : Option Note :=
  notes.find? (fun n => decide (n.id = id ∧ n.chatId = chatId))

/-- `UPDATE notes SET reminder_at = ?, reminded = 0 WHERE id = ? AND chat_id = ?`. -/
def updateNoteReminder (notes : List Note) (t : Nat) (id : Nat) (chatId : Int) :
    List Note :=
  notes.map (fun n =>
    if n.id = id ∧ n.chatId = chatId then
      { n with reminderAt := some t, reminded := false }
    else n)

/-- `UPDATE notes SET text = ? WHERE id = ? AND chat_id = ?`. -/
def updateNoteText (notes : List Note) (text : String) (id : Nat) (chatId : Int) :
    List Note :=
  notes.map (fun n =>
    if n.id = id ∧ n.chatId = chatId then { n with text := text } else n)

/-! ## Deferred scheduler (`scheduledJobs`, `scheduleNoteJob`) -/

/-- A one-shot job armed by `schedule.scheduleJob`.  The callback closure
captures the note's chat id and text; `handle` identifies the timer so
that `cancel()` on an old handle can be told apart from the new one. -/
structure Job where
  handle : Nat
  noteId : Nat
  fireAt : Nat
  chatId : Int
  text : String
deriving DecidableEq

/-- The scheduler registry: `scheduledJobs : Map (note id → job handle)`,
together with the set of live (armed, not yet fired or cancelled) timers
and a supply of fresh handles. -/
structure SchedState where
  jobs : List (Nat × Nat)
  live : List Job
  nextHandle : Nat
deriving DecidableEq

/-- The scheduler state at process start. -/
def initSched : SchedState :=
  ⟨[], [], 0⟩

/-- The `if (scheduledJobs.has(id)) { ...cancel(); scheduledJobs.delete(id) }`
block of `scheduleNoteJob` (and of the `/delete` command). -/
def cancelJob (s : SchedState) (id : Nat) : SchedState :=
  match AList.lk s.jobs id with
  | some h =>
    { s with
      jobs := AList.ers s.jobs id,
      live := s.live.filter (fun j => decide (j.handle ≠ h)) }
  | none => s

/-- `scheduleNoteJob(note)`: skip when the note is missing, has no (valid)
`reminder_at`, or the time is strictly before now; otherwise cancel any
existing timer for the id and store exactly one new handle. -/
def scheduleNoteJob (s : SchedState) (note : Option Note) (now : Nat) : SchedState :=
  match note with
  | none => s
  | some note =>
    match note.reminderAt with
    | none => s
    | some t =>
      if t < now then s
      else
        let s1 := cancelJob s note.id
        { jobs := AList.ins s1.jobs note.id s1.nextHandle,
          live := ⟨s1.nextHandle, note.id, t, note.chatId, note.text⟩ :: s1.live,
          nextHandle := s1.nextHandle + 1 }

/-- Observable side effects of a scheduled fire. -/
inductive Effect where
  | sendReminder (chatId : Int) (text : String)
  | logSendFailure
deriving DecidableEq

/-- The fire callback of `scheduleNoteJob`: the one-shot timer is consumed,
`bot.sendMessage` is attempted once; on success `reminded` is set (UPDATE
by id only); on failure the error is caught and logged.  In both cases the
registry entry is removed afterwards. -/
def fireNoteJob (notes : List Note) (s : SchedState) (j : Job) (deliveryOk : Bool) :
    List Note × SchedState × List Effect :=
  let live1 := s.live.filter (fun j2 => decide (j2 ≠ j))
  let notesEffs : List Note × List Effect :=
    if deliveryOk then
      (notes.map (fun n => if n.id = j.noteId then { n with reminded := true } else n),
       [Effect.sendReminder j.chatId j.text])
    else
      (notes, [Effect.sendReminder j.chatId j.text, Effect.logSendFailure])
  (notesEffs.1,
   { s with live := live1, jobs := AList.ers s.jobs j.noteId },
   notesEffs.2)

/-- Startup recovery:
`SELECT * FROM notes WHERE reminder_at IS NOT NULL AND reminded = 0`
followed by `for (const n of existing) scheduleNoteJob(n)`. -/
def recoverJobs (notes : List Note) (now : Nat) (s : SchedState) : SchedState :=
  (notes.filter (fun n => n.reminderAt.isSome && !n.reminded)).foldl
    (fun s n => scheduleNoteJob s (some n) now) s

/-! ## Session manager (`userState`, `stateTimeouts`, `setState`, `clearState`) -/

/-- The wizard state objects stored in `userState`.  The loosely-typed JS
records `{ mode, step, text?, id?, candidate?, data? }` become one closed
union; the disambiguation candidate, stored as an `"HH:mm"` string in JS,
is kept as the hour/minute pair (the `format`/`split` round-trip is the
identity on them).  Report-wizard states are irrelevant to the claims and
collapse into `report`. -/
inductive Mode where
  | createReminderStep1
  | createReminderStep2 (text : String)
  | confirmNextForReminder (noteId : Option Nat) (text : String) (candHH candMM : Nat)
  | awaitTimeForNote (noteId : Nat)
  | editNoteText (noteId : Nat)
  | editNoteTime (noteId : Nat)
  | report
deriving DecidableEq

/-- An armed `setTimeout` expiry timer for a chat's session. -/
structure SessTimer where
  handle : Nat
  chatId : Int
  deadline : Nat
deriving DecidableEq

/-- The session registries: `userState : Map(chatId → state)` and
`stateTimeouts : Map(chatId → timeout handle)`, plus the live timers and
a supply of fresh handles. -/
structure SessState where
  userState : List (Int × Mode)
  timeouts : List (Int × Nat)
  live : List SessTimer
  nextHandle : Nat
deriving DecidableEq

/-- The session state at process start. -/
def initSess : SessState :=
  ⟨[], [], [], 0⟩

/-- The idle-session timeout: `2 * 60 * 1000` ms. -/
def sessionTimeoutMs : Nat := 2 * 60 * 1000

/-- `setState(chatId, stateObj)`: store the state, `clearTimeout` any prior
timeout for the chat, and start a fresh 2-minute timer. -/
def setState (s : SessState) (chatId : Int) (m : Mode) (now : Nat) : SessState :=
  let lv :=
    match AList.lk s.timeouts chatId with
    | some h => s.live.filter (fun j => decide (j.handle ≠ h))
    | none => s.live
  { userState := AList.ins s.userState chatId m,
    timeouts := AList.ins s.timeouts chatId s.nextHandle,
    live := ⟨s.nextHandle, chatId, now + sessionTimeoutMs⟩ :: lv,
    nextHandle := s.nextHandle + 1 }

/-- `clearState(chatId)`: delete the session and, if present, clear and
delete its timeout. -/
def clearState (s : SessState) (chatId : Int) : SessState :=
  let us := AList.ers s.userState chatId
  match AList.lk s.timeouts chatId with
  | some h =>
    { userState := us,
      timeouts := AList.ers s.timeouts chatId,
      live := s.live.filter (fun j => decide (j.handle ≠ h)),
      nextHandle := s.nextHandle }
  | none => { s with userState := us }

/-! ## Orchestrator (message handler) -/

/-- The whole mutable state of the process: the `notes` table with its
AUTOINCREMENT counter, the scheduler and the session registries. -/
structure BotState where
  notes : List Note
  nextNoteId : Nat
  sched : SchedState
  sess : SessState
deriving DecidableEq

/-- `text.toLowerCase()` is `"ya"`, or `/^y(es|a)?$/i` matches: the
affirmative replies accepted by the `confirm_next_for_reminder` branch
(`"y"`, `"yes"`, `"ya"`, any case). -/
def isAffirmative (text : String) : Bool :=
  let l := lowerStr text
  l == "y" || l == "yes" || l == "ya"

/-- The `bot.on("message")` branches that run while a session exists
(`userState.has(chatId)`), for the reminder-related modes.  `text` is the
already-trimmed message text; `cn`/`cr` are the chrono oracles for this
message.  Report-wizard branches mutate only report data and are out of
scope (`Mode.report` is left untouched). -/
def handleSessionMessage (st : BotState) (chatId : Int) (text : String) (now : Nat)
    (cn cr : Option Nat) : BotState :=
  match AList.lk st.sess.userState chatId with
  | none => st
  | some m =>
    match m with
    | .editNoteText id =>
      let st1 := { st with notes := updateNoteText st.notes text id chatId }
      { st1 with sess := clearState st1.sess chatId }
    | .editNoteTime id =>
      match parseIndoPrefer text now cn cr with
      | .timePassedToday _ => st
      | .unrecognized => st
      | .res t =>
        let st1 := { st with notes := updateNoteReminder st.notes t id chatId }
        let st2 :=
          { st1 with sched := scheduleNoteJob st1.sched (getNoteById st1.notes id chatId) now }
        { st2 with sess := clearState st2.sess chatId }
    | .createReminderStep1 =>
      { st with sess := setState st.sess chatId (.createReminderStep2 text) now }
    | .createReminderStep2 noteText =>
      match parseIndoPrefer text now cn cr with
      | .timePassedToday cand =>
        let m2 := Mode.confirmNextForReminder none noteText (hhOf cand) (mmOf cand)
        { st with sess := setState st.sess chatId m2 now }
      | .unrecognized => st
      | .res t =>
        let ins := insertNote st.notes st.nextNoteId chatId noteText (some t)
        let st1 := { st with notes := ins.1, nextNoteId := st.nextNoteId + 1 }
        let st2 :=
          { st1 with sched := scheduleNoteJob st1.sched (getNoteById st1.notes ins.2 chatId) now }
        { st2 with sess := clearState st2.sess chatId }
    | .confirmNextForReminder _ noteText hh mm =>
      if isAffirmative text then
        let dt := startOfDay now + dayMs + hh * hourMs + mm * minuteMs
        let ins := insertNote st.notes st.nextNoteId chatId noteText (some dt)
        let st1 := { st with notes := ins.1, nextNoteId := st.nextNoteId + 1 }
        let st2 :=
          { st1 with sched := scheduleNoteJob st1.sched (getNoteById st1.notes ins.2 chatId) now }
        { st2 with sess := clearState st2.sess chatId }
      else
        { st with sess := setState st.sess chatId (.createReminderStep2 noteText) now }
    | .awaitTimeForNote id =>
      match parseIndoPrefer text now cn cr with
      | .res t =>
        let st1 := { st with notes := updateNoteReminder st.notes t id chatId }
        let st2 :=
          { st1 with sched := scheduleNoteJob st1.sched (getNoteById st1.notes id chatId) now }
        { st2 with sess := clearState st2.sess chatId }
      | .timePassedToday _ => st
      | .unrecognized => st
    | .report => st

/-- `text.replace(/^(ingatkan|ingat|tolong ingatkan)( saya| aku)?/i, "").trim()`. -/
def stripIngatkan (text : String) : String :=
  let cs := text.data
  let afterCmd : Option (List Char) :=
    match dropPatCI "ingatkan".data cs with
    | some r => some r
    | none =>
      match dropPatCI "ingat".data cs with
      | some r => some r
      | none => dropPatCI "tolong ingatkan".data cs
  match afterCmd with
  | none => jsTrim text
  | some rest =>
    let rest2 :=
      match dropPatCI " saya".data rest with
      | some r => r
      | none =>
        match dropPatCI " aku".data rest with
        | some r => r
        | none => rest
    String.mk (trimChars rest2)

/-- The natural `"ingatkan …"` fallback of the message handler (reached
when no session exists and the text starts with the command words). -/
def handleIngatkan (st : BotState) (chatId : Int) (text : String) (now : Nat)
    (cn cr : Option Nat) : BotState :=
  let noteText := stripIngatkan text
  if noteText = "" then st
  else
    match parseIndoPrefer text now cn cr with
    | .timePassedToday cand =>
      let ins := insertNote st.notes st.nextNoteId chatId noteText none
      let st1 := { st with notes := ins.1, nextNoteId := st.nextNoteId + 1 }
      let m2 := Mode.confirmNextForReminder (some ins.2) noteText (hhOf cand) (mmOf cand)
      { st1 with sess := setState st1.sess chatId m2 now }
    | .unrecognized =>
      let ins := insertNote st.notes st.nextNoteId chatId noteText none
      let st1 := { st with notes := ins.1, nextNoteId := st.nextNoteId + 1 }
      { st1 with sess := setState st1.sess chatId (.awaitTimeForNote ins.2) now }
    | .res t =>
      let ins := insertNote st.notes st.nextNoteId chatId noteText (some t)
      let st1 := { st with notes := ins.1, nextNoteId := st.nextNoteId + 1 }
      { st1 with sched := scheduleNoteJob st1.sched (getNoteById st1.notes ins.2 chatId) now }

/-! ## Registry invariants -/

/-- Well-formedness of the scheduler registry: every live timer is the one
its note id maps to, handles of live timers are below the fresh-handle
counter, and handles identify live timers uniquely. -/
def goodSched (s : SchedState) : Prop :=
  (∀ j ∈ s.live, AList.lk s.jobs j.noteId = some j.handle) ∧
  (∀ j ∈ s.live, j.handle < s.nextHandle) ∧
  (∀ j1 ∈ s.live, ∀ j2 ∈ s.live, j1.handle = j2.handle → j1 = j2)

/-- At most one live timer per reminder id. -/
def oneTimerPerNote (live : List Job) : Prop :=
  ∀ j1 ∈ live, ∀ j2 ∈ live, j1.noteId = j2.noteId → j1 = j2

theorem goodSched_oneTimerPerNote (s : SchedState) (hs : goodSched s) :
    oneTimerPerNote s.live := by
  rcases hs with ⟨ha, _, hc⟩
  intro j1 h1 j2 h2 hid
  have e1 := ha j1 h1
  have e2 := ha j2 h2
  rw [hid, e2] at e1
  exact hc j1 h1 j2 h2 (Option.some.injEq _ _ ▸ e1.symm ▸ rfl)

theorem scheduleNoteJob_none (s : SchedState) (now : Nat) :
    scheduleNoteJob s none now = s := rfl

theorem scheduleNoteJob_skip_null (s : SchedState) (n : Note) (now : Nat)
    (hra : n.reminderAt = none) : scheduleNoteJob s (some n) now = s := by
  simp [scheduleNoteJob, hra]

theorem scheduleNoteJob_skip_past (s : SchedState) (n : Note) (t now : Nat)
    (hra : n.reminderAt = some t) (h : t < now) : scheduleNoteJob s (some n) now = s := by
  simp [scheduleNoteJob, hra, h]

theorem scheduleNoteJob_arm (s : SchedState) (n : Note) (t now : Nat)
    (hra : n.reminderAt = some t) (h : ¬ t < now) :
    scheduleNoteJob s (some n) now =
      { jobs := AList.ins (cancelJob s n.id).jobs n.id (cancelJob s n.id).nextHandle,
        live := ⟨(cancelJob s n.id).nextHandle, n.id, t, n.chatId, n.text⟩
          :: (cancelJob s n.id).live,
        nextHandle := (cancelJob s n.id).nextHandle + 1 } := by
  simp [scheduleNoteJob, hra, h]

theorem cancelJob_nextHandle (s : SchedState) (id : Nat) :
    (cancelJob s id).nextHandle = s.nextHandle := by
  unfold cancelJob
  cases AList.lk s.jobs id <;> rfl

theorem cancelJob_good (s : SchedState) (id : Nat) (hs : goodSched s) :
    goodSched (cancelJob s id) ∧ ∀ j ∈ (cancelJob s id).live, j.noteId ≠ id := by
  rcases hs with ⟨ha, hb, hc⟩
  unfold cancelJob
  cases hlk : AList.lk s.jobs id with
  | none =>
    refine ⟨⟨ha, hb, hc⟩, ?_⟩
    intro j hj he
    have hx := ha j hj
    rw [he, hlk] at hx
    exact Option.noConfusion hx
  | some h =>
    constructor
    · refine ⟨?_, ?_, ?_⟩
      · intro j hj
        have hj' := List.mem_of_mem_filter hj
        have hne : j.handle ≠ h := by
          have := List.of_mem_filter hj
          simpa using this
        have hid : j.noteId ≠ id := by
          intro he
          have := ha j hj'
          rw [he, hlk] at this
          exact hne (Option.some.inj this).symm
        simpa [AList.lk_ers_ne _ _ _ hid] using ha j hj'
      · intro j hj
        exact hb j (List.mem_of_mem_filter hj)
      · intro j1 h1 j2 h2
        exact hc j1 (List.mem_of_mem_filter h1) j2 (List.mem_of_mem_filter h2)
    · intro j hj he
      have hj' := List.mem_of_mem_filter hj
      have hne : j.handle ≠ h := by
        have := List.of_mem_filter hj
        simpa using this
      have := ha j hj'
      rw [he, hlk] at this
      exact hne (Option.some.inj this).symm

/-- C1: `scheduleNoteJob` preserves the scheduler invariant, so at most one
armed timer per reminder id exists at any instant; when it arms, the
existing timer (if any) was cancelled and exactly one fresh handle for the
id is stored and live. -/
theorem c1_arm_at_most_one_timer (s : SchedState) (note : Option Note) (now : Nat)
    (hs : goodSched s) :
    goodSched (scheduleNoteJob s note now) ∧
    oneTimerPerNote (scheduleNoteJob s note now).live ∧
    (∀ n t, note = some n → n.reminderAt = some t → ¬ t < now →
      AList.lk (scheduleNoteJob s note now).jobs n.id = some s.nextHandle ∧
      (⟨s.nextHandle, n.id, t, n.chatId, n.text⟩ : Job) ∈ (scheduleNoteJob s note now).live) := by
  cases note with
  | none =>
    refine ⟨hs, goodSched_oneTimerPerNote s hs, ?_⟩
    intro n t he
    exact absurd he (by simp [scheduleNoteJob])
  | some n =>
    cases hra : n.reminderAt with
    | none =>
      rw [scheduleNoteJob_skip_null s n now hra]
      refine ⟨hs, goodSched_oneTimerPerNote s hs, ?_⟩
      intro n' t he hra' _
      rw [← Option.some.inj he] at hra'
      rw [hra] at hra'
      exact Option.noConfusion hra'
    | some t =>
      by_cases hlt : t < now
      · rw [scheduleNoteJob_skip_past s n t now hra hlt]
        refine ⟨hs, goodSched_oneTimerPerNote s hs, ?_⟩
        intro n' t' he hra' hnlt
        rw [← Option.some.inj he] at hra'
        rw [hra] at hra'
        rw [← Option.some.inj hra'] at hnlt
        exact absurd hlt hnlt
      · rw [scheduleNoteJob_arm s n t now hra hlt]
        rcases cancelJob_good s n.id hs with ⟨⟨ha1, hb1, hc1⟩, hno⟩
        have hnh := cancelJob_nextHandle s n.id
        have hgood :
            goodSched ⟨AList.ins (cancelJob s n.id).jobs n.id (cancelJob s n.id).nextHandle,
              (⟨(cancelJob s n.id).nextHandle, n.id, t, n.chatId, n.text⟩ : Job)
                :: (cancelJob s n.id).live,
              (cancelJob s n.id).nextHandle + 1⟩ := by
          refine ⟨?_, ?_, ?_⟩
          · intro j hj
            rcases List.mem_cons.mp hj with hj | hj
            · rw [hj]
              exact AList.lk_ins_self _ n.id _
            · have hne : j.noteId ≠ n.id := hno j hj
              simpa [AList.lk_ins_ne _ n.id j.noteId _ hne] using ha1 j hj
          · intro j hj
            rcases List.mem_cons.mp hj with hj | hj
            · rw [hj]
              exact Nat.lt_succ_self _
            · exact Nat.lt_trans (hb1 j hj) (Nat.lt_succ_self _)
          · intro j1 h1 j2 h2 hh
            rcases List.mem_cons.mp h1 with h1 | h1 <;>
              rcases List.mem_cons.mp h2 with h2 | h2
            · rw [h1, h2]
            · exact absurd hh (by rw [h1]; exact fun e => Nat.lt_irrefl _ (e ▸ hb1 j2 h2))
            · exact absurd hh (by rw [h2]; exact fun e => Nat.lt_irrefl _ ((e.symm) ▸ hb1 j1 h1))
            · exact hc1 j1 h1 j2 h2 hh
        refine ⟨hgood, goodSched_oneTimerPerNote _ hgood, ?_⟩
        intro n' t' he hra' _
        have hen : n = n' := Option.some.inj he
        rw [← hen] at hra'
        rw [hra] at hra'
        have het : t = t' := Option.some.inj hra'
        rw [← hen, ← het]
        constructor
        · rw [← hnh]
          exact AList.lk_ins_self _ n.id _
        · rw [← hnh]
          exact List.mem_cons_self _ _

/-- A witness for the scheduler invariant theorem at a concrete state. -/
theorem c1_witness :
    goodSched initSched ∧
    (goodSched (scheduleNoteJob initSched (some ⟨1, 5, "x", some 10, false⟩) 0) ∧
     oneTimerPerNote (scheduleNoteJob initSched (some ⟨1, 5, "x", some 10, false⟩) 0).live ∧
     (∀ n t, (some ⟨1, 5, "x", some 10, false⟩ : Option Note) = some n →
       n.reminderAt = some t → ¬ t < 0 →
       AList.lk (scheduleNoteJob initSched (some ⟨1, 5, "x", some 10, false⟩) 0).jobs n.id
         = some initSched.nextHandle ∧
       (⟨initSched.nextHandle, n.id, t, n.chatId, n.text⟩ : Job)
         ∈ (scheduleNoteJob initSched (some ⟨1, 5, "x", some 10, false⟩) 0).live)) :=
  ⟨by simp [goodSched, initSched],
   c1_arm_at_most_one_timer initSched (some ⟨1, 5, "x", some 10, false⟩) 0
     (by simp [goodSched, initSched])⟩

/-- Well-formedness of the session registries: session keys and timeout
keys are unique, every live expiry timer is the one its chat id maps to,
live handles are fresh-bounded, and handles identify live timers. -/
def goodSess (s : SessState) : Prop :=
  AList.keysND s.userState ∧
  AList.keysND s.timeouts ∧
  (∀ j ∈ s.live, AList.lk s.timeouts j.chatId = some j.handle) ∧
  (∀ j ∈ s.live, j.handle < s.nextHandle) ∧
  (∀ j1 ∈ s.live, ∀ j2 ∈ s.live, j1.handle = j2.handle → j1 = j2)

/-- At most one live expiry timer per owner. -/
def oneTimerPerChat (live : List SessTimer) : Prop :=
  ∀ j1 ∈ live, ∀ j2 ∈ live, j1.chatId = j2.chatId → j1 = j2

theorem goodSess_oneTimerPerChat (s : SessState) (hs : goodSess s) :
    oneTimerPerChat s.live := by
  rcases hs with ⟨_, _, hc, _, he⟩
  intro j1 h1 j2 h2 hid
  have e1 := hc j1 h1
  have e2 := hc j2 h2
  rw [hid, e2] at e1
  exact he j1 h1 j2 h2 (Option.some.inj e1).symm

theorem goodSess_init : goodSess initSess := by
  refine ⟨AList.keysND_nil, AList.keysND_nil, ?_, ?_, ?_⟩ <;> simp [initSess]

/-- The live timers that remain after `setState` clears the chat's previous
timeout (a name for the inline `match` in `setState`). -/
def clearedLive (s : SessState) (chatId : Int) : List SessTimer :=
  match AList.lk s.timeouts chatId with
  | some h => s.live.filter (fun j => decide (j.handle ≠ h))
  | none => s.live

/-- C2: `setState` replaces the session wholesale, cancels any prior
expiry timer and arms a single fresh one with deadline `now + 2 min`;
`clearState` deletes both the session and its timer.  Both preserve the
registry invariant, so at most one live session and one live expiry timer
exist per owner at any time. -/
theorem c2_session_set_clear (s : SessState) (chatId : Int) (m : Mode) (now : Nat)
    (hs : goodSess s) :
    (goodSess (setState s chatId m now) ∧
     AList.lk (setState s chatId m now).userState chatId = some m ∧
     (⟨s.nextHandle, chatId, now + sessionTimeoutMs⟩ : SessTimer)
       ∈ (setState s chatId m now).live ∧
     (∀ j ∈ (setState s chatId m now).live, j.chatId = chatId →
        j = ⟨s.nextHandle, chatId, now + sessionTimeoutMs⟩) ∧
     oneTimerPerChat (setState s chatId m now).live) ∧
    (goodSess (clearState s chatId) ∧
     AList.lk (clearState s chatId).userState chatId = none ∧
     (∀ j ∈ (clearState s chatId).live, j.chatId ≠ chatId)) := by
  rcases hs with ⟨hu, ht, hc, hd, he⟩
  constructor
  · -- setState
    have hlive :
        (setState s chatId m now).live =
          (⟨s.nextHandle, chatId, now + sessionTimeoutMs⟩ : SessTimer) ::
            clearedLive s chatId := rfl
    -- facts about the old-live part after clearing the previous timeout
    have hold : ∀ j ∈ clearedLive s chatId, j ∈ s.live ∧ j.chatId ≠ chatId := by
      unfold clearedLive
      cases hlk : AList.lk s.timeouts chatId with
      | none =>
        intro j hj
        refine ⟨hj, ?_⟩
        intro he'
        have hx := hc j hj
        rw [he', hlk] at hx
        exact Option.noConfusion hx
      | some h =>
        intro j hj
        have hj' := List.mem_of_mem_filter hj
        have hne : j.handle ≠ h := by
          have := List.of_mem_filter hj
          simpa using this
        refine ⟨hj', ?_⟩
        intro he'
        have hx := hc j hj'
        rw [he', hlk] at hx
        exact hne (Option.some.inj hx).symm
    constructor
    · -- goodSess of setState
      refine ⟨AList.keysND_ins _ _ _ hu, AList.keysND_ins _ _ _ ht, ?_, ?_, ?_⟩
      · intro j hj
        rw [hlive] at hj
        rcases List.mem_cons.mp hj with hj | hj
        · rw [hj]
          exact AList.lk_ins_self _ chatId _
        · rcases hold j hj with ⟨hj', hne⟩
          rw [show (setState s chatId m now).timeouts
                = AList.ins s.timeouts chatId s.nextHandle from rfl]
          rw [AList.lk_ins_ne _ chatId j.chatId _ hne]
          exact hc j hj'
      · intro j hj
        rw [hlive] at hj
        rcases List.mem_cons.mp hj with hj | hj
        · rw [hj]
          exact Nat.lt_succ_self _
        · rcases hold j hj with ⟨hj', _⟩
          exact Nat.lt_trans (hd j hj') (Nat.lt_succ_self _)
      · intro j1 h1 j2 h2 hh
        rw [hlive] at h1 h2
        rcases List.mem_cons.mp h1 with h1 | h1 <;>
          rcases List.mem_cons.mp h2 with h2 | h2
        · rw [h1, h2]
        · exact absurd hh (by
            rw [h1]
            exact fun e => Nat.lt_irrefl _ (e ▸ hd j2 (hold j2 h2).1))
        · exact absurd hh (by
            rw [h2]
            exact fun e => Nat.lt_irrefl _ (e.symm ▸ hd j1 (hold j1 h1).1))
        · exact he j1 (hold j1 h1).1 j2 (hold j2 h2).1 hh
    constructor
    · exact AList.lk_ins_self _ chatId m
    constructor
    · rw [hlive]
      exact List.mem_cons_self _ _
    constructor
    · intro j hj hcid
      rw [hlive] at hj
      rcases List.mem_cons.mp hj with hj | hj
      · exact hj
      · exact absurd hcid (hold j hj).2
    · -- uniqueness per chat among the new live list
      intro j1 h1 j2 h2 hid
      rw [hlive] at h1 h2
      rcases List.mem_cons.mp h1 with h1 | h1 <;>
        rcases List.mem_cons.mp h2 with h2 | h2
      · rw [h1, h2]
      · exact absurd (by rw [← hid, h1] : j2.chatId = chatId) (hold j2 h2).2
      · exact absurd (by rw [hid, h2] : j1.chatId = chatId) (hold j1 h1).2
      · exact he j1 (hold j1 h1).1 j2 (hold j2 h2).1
          (Option.some.inj (by rw [← hc j1 (hold j1 h1).1, hid, hc j2 (hold j2 h2).1]))
  · -- clearState
    unfold clearState
    cases hlk : AList.lk s.timeouts chatId with
    | none =>
      refine ⟨⟨AList.keysND_ers _ _ hu, ht, hc, hd, he⟩, AList.lk_ers_self _ chatId, ?_⟩
      intro j hj he'
      have hx := hc j hj
      rw [he', hlk] at hx
      exact Option.noConfusion hx
    | some h =>
      have hfil : ∀ j ∈ s.live.filter (fun j => decide (j.handle ≠ h)),
          j ∈ s.live ∧ j.handle ≠ h := by
        intro j hj
        refine ⟨List.mem_of_mem_filter hj, ?_⟩
        have := List.of_mem_filter hj
        simpa using this
      refine ⟨⟨AList.keysND_ers _ _ hu, AList.keysND_ers _ _ ht, ?_, ?_, ?_⟩,
        AList.lk_ers_self _ chatId, ?_⟩
      · intro j hj
        rcases hfil j hj with ⟨hj', hne⟩
        have hcid : j.chatId ≠ chatId := by
          intro he'
          have hx := hc j hj'
          rw [he', hlk] at hx
          exact hne (Option.some.inj hx).symm
        rw [AList.lk_ers_ne _ chatId j.chatId hcid]
        exact hc j hj'
      · intro j hj
        exact hd j (hfil j hj).1
      · intro j1 h1 j2 h2
        exact he j1 (hfil j1 h1).1 j2 (hfil j2 h2).1
      · intro j hj he'
        rcases hfil j hj with ⟨hj', hne⟩
        have hx := hc j hj'
        rw [he', hlk] at hx
        exact hne (Option.some.inj hx).symm

/-- A witness for the session set/clear theorem at a concrete state. -/
theorem c2_witness :
    goodSess initSess ∧
    AList.lk (setState initSess 5 Mode.createReminderStep1 1000).userState 5
      = some Mode.createReminderStep1 ∧
    (⟨initSess.nextHandle, 5, 1000 + sessionTimeoutMs⟩ : SessTimer)
      ∈ (setState initSess 5 Mode.createReminderStep1 1000).live ∧
    AList.lk (clearState initSess 5).userState 5 = none :=
  ⟨goodSess_init,
   (c2_session_set_clear initSess 5 Mode.createReminderStep1 1000 goodSess_init).1.2.1,
   (c2_session_set_clear initSess 5 Mode.createReminderStep1 1000 goodSess_init).1.2.2.1,
   (c2_session_set_clear initSess 5 Mode.createReminderStep1 1000 goodSess_init).2.2.1⟩

/-! ## Temporal resolver claims -/

/-- C3: with an explicit hour pattern in the phrase, `parseIndoPrefer`
returns the today-candidate when it is strictly after `now`; otherwise the
`time_passed_today` signal when the phrase has a "hari ini"/"today"
marker; otherwise the candidate shifted forward one day — together with
the three concrete "jam 9 pagi" examples. -/
theorem c3_parse_indo_prefer_branches (text : String) (now : Nat) (cn cr : Option Nat)
    (cand : Nat) (h : extractHourPreferToday text now = some cand) :
    (now < cand → parseIndoPrefer text now cn cr = .res cand) ∧
    (¬ now < cand → containsHariIni text = true →
      parseIndoPrefer text now cn cr = .timePassedToday cand) ∧
    (¬ now < cand → containsHariIni text = false →
      parseIndoPrefer text now cn cr = .res (cand + dayMs)) ∧
    parseIndoPrefer "jam 9 pagi" (20000 * dayMs + 8 * hourMs) none none
      = .res (20000 * dayMs + 9 * hourMs) ∧
    parseIndoPrefer "jam 9 pagi" (20000 * dayMs + 10 * hourMs) none none
      = .res (20001 * dayMs + 9 * hourMs) ∧
    parseIndoPrefer "jam 9 pagi hari ini" (20000 * dayMs + 10 * hourMs) none none
      = .timePassedToday (20000 * dayMs + 9 * hourMs) := by
  refine ⟨?_, ?_, ?_, by decide, by decide, by decide⟩
  · intro hlt
    simp [parseIndoPrefer, h, hlt]
  · intro hnlt hhari
    simp [parseIndoPrefer, h, hnlt, hhari]
  · intro hnlt hhari
    simp [parseIndoPrefer, h, hnlt, hhari]

/-- A witness for the resolver branch theorem at "jam 9 pagi", 08:00. -/
theorem c3_witness :
    extractHourPreferToday "jam 9 pagi" (20000 * dayMs + 8 * hourMs)
      = some (20000 * dayMs + 9 * hourMs) ∧
    parseIndoPrefer "jam 9 pagi" (20000 * dayMs + 8 * hourMs) none none
      = .res (20000 * dayMs + 9 * hourMs) :=
  ⟨by decide,
   (c3_parse_indo_prefer_branches "jam 9 pagi" (20000 * dayMs + 8 * hourMs) none none
     (20000 * dayMs + 9 * hourMs) (by decide)).1 (by decide)⟩

/-! ## Scheduler `arm` with non-future timestamps (C4) -/

/-- A reminder whose time equals the current instant exactly. -/
def c4Note : Note :=
  ⟨1, 5, "x", some (20000 * dayMs), false⟩

/-- C4 counterexample: `scheduleNoteJob` only skips *strictly past* times;
called with `at` exactly equal to `now` (not strictly future), it is not a
no-op — a timer handle is stored for the id. -/
theorem c4_counterexample :
    c4Note.reminderAt = some (20000 * dayMs) ∧
    ¬ 20000 * dayMs < 20000 * dayMs ∧
    scheduleNoteJob initSched (some c4Note) (20000 * dayMs) ≠ initSched ∧
    AList.lk (scheduleNoteJob initSched (some c4Note) (20000 * dayMs)).jobs 1 = some 0 := by
  exact ⟨rfl, by decide, by decide, by decide⟩

/-- C4 (amended): `arm` is a silent no-op — no timer stored, nothing ever
fires — whenever `at` is strictly before `now` (and when the note is
absent); an `at` equal to `now` is still armed. -/
theorem c4_arm_strict_past_noop (s : SchedState) (note : Note) (t now : Nat)
    (h1 : note.reminderAt = some t) (h2 : t < now) :
    scheduleNoteJob s (some note) now = s ∧ scheduleNoteJob s none now = s :=
  ⟨scheduleNoteJob_skip_past s note t now h1 h2, rfl⟩

/-- A witness for the strict-past no-op theorem at a concrete input. -/
theorem c4_witness :
    c4Note.reminderAt = some (20000 * dayMs) ∧
    20000 * dayMs < 20000 * dayMs + 1 ∧
    scheduleNoteJob initSched (some c4Note) (20000 * dayMs + 1) = initSched :=
  ⟨rfl, Nat.lt_succ_self _,
   (c4_arm_strict_past_noop initSched c4Note (20000 * dayMs) (20000 * dayMs + 1) rfl
     (Nat.lt_succ_self _)).1⟩

/-! ## Fire semantics (C5) -/

/-- C5: when a timer fires, the callback attempts delivery exactly once,
the one-shot timer is consumed, and the registry entry for the id is
removed whether delivery succeeds or fails; a failed delivery leaves the
notes table untouched (no retry, error only logged). -/
theorem c5_fire_once_removes_entry (notes : List Note) (s : SchedState) (j : Job) :
    (∀ ok,
      AList.lk (fireNoteJob notes s j ok).2.1.jobs j.noteId = none ∧
      (fireNoteJob notes s j ok).2.1.live.countP (fun j2 => decide (j2 = j)) = 0 ∧
      (fireNoteJob notes s j ok).2.2.countP
        (fun e => decide (e = Effect.sendReminder j.chatId j.text)) = 1) ∧
    (fireNoteJob notes s j false).1 = notes := by
  constructor
  · intro ok
    refine ⟨?_, ?_, ?_⟩
    · cases ok <;> simp [fireNoteJob, AList.lk_ers_self]
    · have hz : (s.live.filter (fun j2 => decide (j2 ≠ j))).countP
          (fun j2 => decide (j2 = j)) = 0 := by
        rw [List.countP_eq_zero]
        intro a ha
        have := List.of_mem_filter ha
        simp only [decide_eq_true_eq] at this
        simpa using this
      cases ok <;> simpa [fireNoteJob] using hz
    · cases ok <;> simp [fireNoteJob, List.countP_cons, List.countP_nil]
  · simp [fireNoteJob]

/-! ## Hour/meridiem mapping (C7) -/

/-- The meridiem-to-24-hour mapping exactly as worded in the spec:
morning & hour=12 → 0; (noon|afternoon|evening) & hour<12 → hour+12;
pm & hour<12 → hour+12; am & hour=12 → 0; no meridiem → hour unchanged
(morning = pagi, noon = siang, afternoon = sore, evening = malam). -/
def specMeridiemHour (mer : Option Meridiem) (hour : Nat) : Nat :=
  match mer with
  | none => hour
  | some .pagi => if hour = 12 then 0 else hour
  | some .siang => if hour < 12 then hour + 12 else hour
  | some .sore => if hour < 12 then hour + 12 else hour
  | some .malam => if hour < 12 then hour + 12 else hour
  | some .pm => if hour < 12 then hour + 12 else hour
  | some .am => if hour = 12 then 0 else hour

theorem jsMeridiemHour_eq_spec (mer : Option Meridiem) (h : Nat) :
    jsMeridiemHour mer h = specMeridiemHour mer h := by
  cases mer with
  | none => rfl
  | some m =>
    cases m <;> simp [jsMeridiemHour, specMeridiemHour] <;> split_ifs <;> omega

/-- C7: for any phrase matched by the hour regex, `extractHourPreferToday`
defaults an omitted minute to 0 and maps the meridiem token exactly by the
spec's table (`specMeridiemHour`), yielding today's candidate at that
hour:minute. -/
theorem c7_extract_hour_meridiem (text : String) (now h : Nat) (minu : Option Nat)
    (mer : Option Meridiem) (hm : findHourMatch text.data = some (h, minu, mer)) :
    extractHourPreferToday text now
      = some (startOfDay now + specMeridiemHour mer h * hourMs + minu.getD 0 * minuteMs) := by
  simp [extractHourPreferToday, hm, jsMeridiemHour_eq_spec]

/-- A witness for the hour/meridiem theorem at "jam 9 pagi". -/
theorem c7_witness :
    findHourMatch "jam 9 pagi".data = some (9, none, some Meridiem.pagi) ∧
    extractHourPreferToday "jam 9 pagi" (20000 * dayMs)
      = some (startOfDay (20000 * dayMs) + specMeridiemHour (some Meridiem.pagi) 9 * hourMs
          + (none : Option Nat).getD 0 * minuteMs) :=
  ⟨by decide,
   c7_extract_hour_meridiem "jam 9 pagi" (20000 * dayMs) 9 none (some Meridiem.pagi)
     (by decide)⟩

/-! ## Startup recovery (C6) -/

/-- The notes that `scheduleNoteJob` actually arms at recovery time:
non-null reminder, not yet reminded, time not strictly past. -/
def armsNow (n : Note) (now : Nat) : Prop :=
  ∃ t, n.reminderAt = some t ∧ n.reminded = false ∧ ¬ t < now

theorem armsNow_pass (n : Note) (now : Nat) (h : armsNow n now) :
    (n.reminderAt.isSome && !n.reminded) = true := by
  rcases h with ⟨t, h1, h2, _⟩
  simp [h1, h2]

theorem sched_lk_ne (s : SchedState) (n : Note) (now i : Nat) (h : i ≠ n.id) :
    AList.lk (scheduleNoteJob s (some n) now).jobs i = AList.lk s.jobs i := by
  cases hra : n.reminderAt with
  | none => rw [scheduleNoteJob_skip_null s n now hra]
  | some t =>
    by_cases hlt : t < now
    · rw [scheduleNoteJob_skip_past s n t now hra hlt]
    · rw [scheduleNoteJob_arm s n t now hra hlt]
      show AList.lk (AList.ins (cancelJob s n.id).jobs n.id (cancelJob s n.id).nextHandle) i
        = AList.lk s.jobs i
      rw [AList.lk_ins_ne _ n.id i _ h]
      unfold cancelJob
      cases hlk : AList.lk s.jobs n.id with
      | none => rfl
      | some hdl => exact AList.lk_ers_ne _ n.id i h

theorem sched_lk_self_arm (s : SchedState) (n : Note) (now t : Nat)
    (hra : n.reminderAt = some t) (hnlt : ¬ t < now) :
    (AList.lk (scheduleNoteJob s (some n) now).jobs n.id).isSome = true := by
  rw [scheduleNoteJob_arm s n t now hra hnlt]
  show (AList.lk (AList.ins (cancelJob s n.id).jobs n.id (cancelJob s n.id).nextHandle)
    n.id).isSome = true
  rw [AList.lk_ins_self]
  rfl

/-- After the recovery loop, an id is armed iff some selected note with
that id arms now, or it was already armed in the starting state. -/
theorem recover_lk_isSome (now : Nat) :
    ∀ (notes : List Note) (s : SchedState) (i : Nat),
      (AList.lk (recoverJobs notes now s).jobs i).isSome = true ↔
        ((∃ n ∈ notes, n.id = i ∧ armsNow n now) ∨
         (AList.lk s.jobs i).isSome = true) := by
  intro notes
  induction notes with
  | nil =>
    intro s i
    simp [recoverJobs]
  | cons n rest ih =>
    intro s i
    by_cases hpass : (n.reminderAt.isSome && !n.reminded) = true
    · have hstep : recoverJobs (n :: rest) now s
          = recoverJobs rest now (scheduleNoteJob s (some n) now) := by
        simp [recoverJobs, List.filter_cons, hpass]
      rw [hstep, ih]
      by_cases harm : armsNow n now
      · constructor
        · rintro (⟨n', hmem, hid, ha⟩ | hbase)
          · exact Or.inl ⟨n', List.mem_cons_of_mem _ hmem, hid, ha⟩
          · by_cases hi : i = n.id
            · exact Or.inl ⟨n, List.mem_cons_self _ _, hi.symm, harm⟩
            · rw [sched_lk_ne s n now i hi] at hbase
              exact Or.inr hbase
        · rintro (⟨n', hmem, hid, ha⟩ | hbase)
          · rcases List.mem_cons.mp hmem with he | hmem'
            · rcases harm with ⟨t, h1, _, h3⟩
              refine Or.inr ?_
              rw [← hid, he]
              exact sched_lk_self_arm s n now t h1 h3
            · exact Or.inl ⟨n', hmem', hid, ha⟩
          · refine Or.inr ?_
            by_cases hi : i = n.id
            · rcases harm with ⟨t, h1, _, h3⟩
              rw [hi]
              exact sched_lk_self_arm s n now t h1 h3
            · rw [sched_lk_ne s n now i hi]
              exact hbase
      · have hskip : scheduleNoteJob s (some n) now = s := by
          rcases Option.isSome_iff_exists.mp (Bool.and_elim_left hpass) with ⟨t, hra⟩
          have hrem : n.reminded = false := by
            have := Bool.and_elim_right hpass
            simpa using this
          have hlt : t < now := by
            by_contra hnlt
            exact harm ⟨t, hra, hrem, hnlt⟩
          exact scheduleNoteJob_skip_past s n t now hra hlt
        rw [hskip]
        constructor
        · rintro (⟨n', hmem, hid, ha⟩ | h)
          · exact Or.inl ⟨n', List.mem_cons_of_mem _ hmem, hid, ha⟩
          · exact Or.inr h
        · rintro (⟨n', hmem, hid, ha⟩ | h)
          · rcases List.mem_cons.mp hmem with he | hmem'
            · exact absurd (he ▸ ha) harm
            · exact Or.inl ⟨n', hmem', hid, ha⟩
          · exact Or.inr h
    · have hstep : recoverJobs (n :: rest) now s = recoverJobs rest now s := by
        simp [recoverJobs, List.filter_cons, hpass]
      rw [hstep, ih]
      constructor
      · rintro (⟨n', hmem, hid, ha⟩ | h)
        · exact Or.inl ⟨n', List.mem_cons_of_mem _ hmem, hid, ha⟩
        · exact Or.inr h
      · rintro (⟨n', hmem, hid, ha⟩ | h)
        · rcases List.mem_cons.mp hmem with he | hmem'
          · exact absurd (he ▸ armsNow_pass n' now ha) hpass
          · exact Or.inl ⟨n', hmem', hid, ha⟩
        · exact Or.inr h

/-- C6: starting from the empty registry, recovery arms exactly the
persisted reminders selected by the query (non-null `reminder_at`,
`reminded = 0`) whose time is not past: every future, un-reminded note is
armed; no note with a past time, a null time, or `reminded = 1` is. -/
theorem c6_recover_arms_future (notes : List Note) (now : Nat)
    (hnd : (notes.map Note.id).Nodup) :
    ∀ n ∈ notes,
      (∀ t, n.reminderAt = some t → n.reminded = false → now < t →
        (AList.lk (recoverJobs notes now initSched).jobs n.id).isSome = true) ∧
      (∀ t, n.reminderAt = some t → t < now →
        AList.lk (recoverJobs notes now initSched).jobs n.id = none) ∧
      (n.reminderAt = none →
        AList.lk (recoverJobs notes now initSched).jobs n.id = none) ∧
      (n.reminded = true →
        AList.lk (recoverJobs notes now initSched).jobs n.id = none) := by
  intro n hmem
  have hbase : (AList.lk initSched.jobs n.id).isSome = true ↔ False := by
    simp [initSched, AList.lk]
  have hchar := recover_lk_isSome now notes initSched n.id
  have hinj := List.inj_on_of_nodup_map hnd
  have hnone :
      (∀ n' ∈ notes, n'.id = n.id → ¬ armsNow n' now) →
      AList.lk (recoverJobs notes now initSched).jobs n.id = none := by
    intro hno
    cases hv : AList.lk (recoverJobs notes now initSched).jobs n.id with
    | none => rfl
    | some v =>
      have : (AList.lk (recoverJobs notes now initSched).jobs n.id).isSome = true := by
        rw [hv]
        rfl
      rcases hchar.mp this with ⟨n', hmem', hid, ha⟩ | hb
      · exact absurd ha (hno n' hmem' hid)
      · exact absurd hb (by simpa using hbase)
  refine ⟨?_, ?_, ?_, ?_⟩
  · intro t hra hrem hfut
    exact hchar.mpr (Or.inl ⟨n, hmem, rfl, t, hra, hrem, Nat.lt_asymm hfut⟩)
  · intro t hra hpast
    refine hnone ?_
    intro n' hmem' hid ha
    have he : n' = n := hinj hmem' hmem hid
    rcases ha with ⟨t', h1, _, h3⟩
    rw [he, hra] at h1
    rw [Option.some.inj h1] at hpast
    exact h3 hpast
  · intro hra
    refine hnone ?_
    intro n' hmem' hid ha
    have he : n' = n := hinj hmem' hmem hid
    rcases ha with ⟨t', h1, _, _⟩
    rw [he, hra] at h1
    exact Option.noConfusion h1
  · intro hrem
    refine hnone ?_
    intro n' hmem' hid ha
    have he : n' = n := hinj hmem' hmem hid
    rcases ha with ⟨t', _, h2, _⟩
    rw [he, hrem] at h2
    exact Bool.noConfusion h2

/-- Two persisted reminders, one future and one past, at recovery. -/
def c6Notes : List Note :=
  [⟨1, 5, "a", some (20000 * dayMs + 2 * hourMs), false⟩,
   ⟨2, 5, "b", some (20000 * dayMs), false⟩]

/-- A witness for the recovery theorem at a concrete notes table. -/
theorem c6_witness :
    (c6Notes.map Note.id).Nodup ∧
    (AList.lk (recoverJobs c6Notes (20000 * dayMs + hourMs) initSched).jobs 1).isSome
      = true ∧
    AList.lk (recoverJobs c6Notes (20000 * dayMs + hourMs) initSched).jobs 2 = none := by
  refine ⟨by decide, ?_, ?_⟩
  · exact (c6_recover_arms_future c6Notes (20000 * dayMs + hourMs) (by decide)
      ⟨1, 5, "a", some (20000 * dayMs + 2 * hourMs), false⟩ (by decide)).1
      (20000 * dayMs + 2 * hourMs) rfl rfl (by decide)
  · exact ((c6_recover_arms_future c6Notes (20000 * dayMs + hourMs) (by decide)
      ⟨2, 5, "b", some (20000 * dayMs), false⟩ (by decide)).2.1)
      (20000 * dayMs) rfl (by decide)

/-! ## Orchestrator claims (C8, C9, C10) -/

theorem clearState_userState (s : SessState) (chatId : Int) :
    (clearState s chatId).userState = AList.ers s.userState chatId := by
  unfold clearState
  cases AList.lk s.timeouts chatId <;> rfl

theorem getNote_append (notes : List Note) (m : Note)
    (h : ∀ n ∈ notes, n.id ≠ m.id) :
    getNoteById (notes ++ [m]) m.id m.chatId = some m := by
  induction notes with
  | nil => simp [getNoteById]
  | cons n rest ih =>
    have hne : ¬ (n.id = m.id ∧ n.chatId = m.chatId) := by
      intro hc
      exact h n (List.mem_cons_self _ _) hc.1
    have hrest : ∀ n' ∈ rest, n'.id ≠ m.id := by
      intro n' hn'
      exact h n' (List.mem_cons_of_mem _ hn')
    simpa [getNoteById, List.find?, hne] using ih hrest

theorem now_lt_startOfDay_add_day (now : Nat) : now < startOfDay now + dayMs := by
  show now < now / 86400000 * 86400000 + 86400000
  omega

/-- C8 (amended): in `confirm_next_for_reminder`, an affirmative reply
persists and arms a reminder at the day after the *reply* at the stored
candidate hour:minute (this equals candidate + 1 day exactly when the
reply arrives on the candidate's calendar day) and ends the session; any
other reply re-enters time capture (step 2) preserving the captured text
and persists nothing. -/
theorem c8_confirm_next (st : BotState) (chat : Int) (idOpt : Option Nat) (txt : String)
    (hh mm : Nat) (text : String) (now : Nat) (cn cr : Option Nat)
    (hsess : AList.lk st.sess.userState chat
      = some (.confirmNextForReminder idOpt txt hh mm))
    (hids : ∀ n ∈ st.notes, n.id < st.nextNoteId) :
    (isAffirmative text = true →
      (handleSessionMessage st chat text now cn cr).notes
        = st.notes ++ [⟨st.nextNoteId, chat, txt,
            some (startOfDay now + dayMs + hh * hourMs + mm * minuteMs), false⟩] ∧
      (AList.lk (handleSessionMessage st chat text now cn cr).sched.jobs
         st.nextNoteId).isSome = true ∧
      AList.lk (handleSessionMessage st chat text now cn cr).sess.userState chat = none) ∧
    (isAffirmative text = false →
      (handleSessionMessage st chat text now cn cr).notes = st.notes ∧
      AList.lk (handleSessionMessage st chat text now cn cr).sess.userState chat
        = some (.createReminderStep2 txt)) := by
  set row : Note :=
    ⟨st.nextNoteId, chat, txt,
      some (startOfDay now + dayMs + hh * hourMs + mm * minuteMs), false⟩ with hrow
  constructor
  · intro haff
    have hred : handleSessionMessage st chat text now cn cr =
        { notes := st.notes ++ [row],
          nextNoteId := st.nextNoteId + 1,
          sched := scheduleNoteJob st.sched
            (getNoteById (st.notes ++ [row]) st.nextNoteId chat) now,
          sess := clearState st.sess chat } := by
      rw [handleSessionMessage, hsess]
      simp only [haff, if_true, insertNote]
    have hget : getNoteById (st.notes ++ [row]) st.nextNoteId chat = some row := by
      have h := getNote_append st.notes row (fun n hn => Nat.ne_of_lt (hids n hn))
      simpa [hrow] using h
    refine ⟨by rw [hred], ?_, ?_⟩
    · rw [hred]
      show (AList.lk (scheduleNoteJob st.sched
        (getNoteById (st.notes ++ [row]) st.nextNoteId chat) now).jobs
          st.nextNoteId).isSome = true
      rw [hget]
      have hfut : ¬ (startOfDay now + dayMs + hh * hourMs + mm * minuteMs) < now := by
        have := now_lt_startOfDay_add_day now
        omega
      exact sched_lk_self_arm st.sched row now _ rfl hfut
    · rw [hred]
      show AList.lk (clearState st.sess chat).userState chat = none
      rw [clearState_userState]
      exact AList.lk_ers_self _ chat
  · intro haff
    have hred : handleSessionMessage st chat text now cn cr =
        { st with sess := setState st.sess chat (.createReminderStep2 txt) now } := by
      rw [handleSessionMessage, hsess]
      simp only [haff, if_false, Bool.false_eq_true]
    refine ⟨by rw [hred], ?_⟩
    rw [hred]
    show AList.lk (setState st.sess chat (.createReminderStep2 txt) now).userState chat
      = some (.createReminderStep2 txt)
    exact AList.lk_ins_self _ chat _

/-- The state used for the C8 scenario: a `create_reminder` step-2 session
for chat 5 with captured text "beli kopi". -/
def c8State : BotState :=
  { notes := [], nextNoteId := 1, sched := initSched,
    sess := { userState := [((5 : Int), Mode.createReminderStep2 "beli kopi")],
              timeouts := [], live := [], nextHandle := 0 } }

/-- C8 counterexample: the candidate is day 100 at 09:00 (the phrase's
today-time has passed at 10:00); the affirmative reply arrives just after
midnight on day 101, and the code schedules day 102 at 09:00 — not
candidate + 1 day (day 101 at 09:00). -/
theorem c8_counterexample :
    parseIndoPrefer "jam 9 pagi hari ini" (100 * dayMs + 10 * hourMs) none none
      = .timePassedToday (100 * dayMs + 9 * hourMs) ∧
    (handleSessionMessage
      (handleSessionMessage c8State 5 "jam 9 pagi hari ini" (100 * dayMs + 10 * hourMs)
        none none)
      5 "ya" (101 * dayMs + 10 * minuteMs) none none).notes
      = [⟨1, 5, "beli kopi", some (102 * dayMs + 9 * hourMs), false⟩] ∧
    (102 * dayMs + 9 * hourMs : Nat) ≠ (100 * dayMs + 9 * hourMs) + dayMs := by
  exact ⟨by decide, by decide, by decide⟩

/-- A confirmation-pending state for the C8 witness. -/
def c8StateB : BotState :=
  { notes := [], nextNoteId := 1, sched := initSched,
    sess := { userState := [((5 : Int), Mode.confirmNextForReminder none "beli kopi" 9 0)],
              timeouts := [], live := [], nextHandle := 0 } }

/-- A witness for the amended confirmation theorem at a same-day reply. -/
theorem c8_witness :
    AList.lk c8StateB.sess.userState 5
      = some (.confirmNextForReminder none "beli kopi" 9 0) ∧
    isAffirmative "ya" = true ∧
    (handleSessionMessage c8StateB 5 "ya" (100 * dayMs + 10 * hourMs) none none).notes
      = [⟨1, 5, "beli kopi",
          some (startOfDay (100 * dayMs + 10 * hourMs) + dayMs + 9 * hourMs + 0 * minuteMs),
          false⟩] :=
  ⟨by decide, by decide,
   ((c8_confirm_next c8StateB 5 none "beli kopi" 9 0 "ya" (100 * dayMs + 10 * hourMs)
      none none (by decide) (by decide)).1 (by decide)).1⟩

/-- C9 (amended): `edit_note_time` resolves the typed time with the same
resolver as create step 2, but on `time_passed_today` it only informs the
user and re-prompts, leaving the whole state (session still
`edit_note_time`) unchanged — unlike create step 2, which enters
`confirm_next_for_reminder` carrying the candidate. -/
theorem c9_edit_note_time_disambiguation (st : BotState) (chat : Int) (id : Nat)
    (noteText text : String) (now : Nat) (cn cr : Option Nat) (cand : Nat) :
    (AList.lk st.sess.userState chat = some (.editNoteTime id) →
     parseIndoPrefer text now cn cr = .timePassedToday cand →
     handleSessionMessage st chat text now cn cr = st) ∧
    (AList.lk st.sess.userState chat = some (.createReminderStep2 noteText) →
     parseIndoPrefer text now cn cr = .timePassedToday cand →
     AList.lk (handleSessionMessage st chat text now cn cr).sess.userState chat
       = some (.confirmNextForReminder none noteText (hhOf cand) (mmOf cand))) := by
  constructor
  · intro h1 h2
    rw [handleSessionMessage, h1]
    simp only [h2]
  · intro h1 h2
    rw [handleSessionMessage, h1]
    simp only [h2]
    show AList.lk (setState st.sess chat
      (.confirmNextForReminder none noteText (hhOf cand) (mmOf cand)) now).userState chat
      = some (.confirmNextForReminder none noteText (hhOf cand) (mmOf cand))
    exact AList.lk_ins_self _ chat _

/-- An `edit_note_time` session for chat 5 on note 7. -/
def c9State : BotState :=
  { notes := [⟨7, 5, "n", some 0, false⟩], nextNoteId := 8, sched := initSched,
    sess := { userState := [((5 : Int), Mode.editNoteTime 7)],
              timeouts := [], live := [], nextHandle := 0 } }

/-- The same situation inside `create_reminder` step 2. -/
def c9CreateState : BotState :=
  { notes := [⟨7, 5, "n", some 0, false⟩], nextNoteId := 8, sched := initSched,
    sess := { userState := [((5 : Int), Mode.createReminderStep2 "beli kopi")],
              timeouts := [], live := [], nextHandle := 0 } }

/-- C9 counterexample: on the `time_passed_today` signal, the
`edit_note_time` branch does *not* enter `confirm_next_for_reminder` — the
session stays `edit_note_time` (the whole state is unchanged), while
create step 2 on the same input does enter the confirm state. -/
theorem c9_counterexample :
    parseIndoPrefer "jam 9 pagi hari ini" (100 * dayMs + 10 * hourMs) none none
      = .timePassedToday (100 * dayMs + 9 * hourMs) ∧
    handleSessionMessage c9State 5 "jam 9 pagi hari ini" (100 * dayMs + 10 * hourMs)
      none none = c9State ∧
    AList.lk (handleSessionMessage c9State 5 "jam 9 pagi hari ini"
      (100 * dayMs + 10 * hourMs) none none).sess.userState 5
      = some (Mode.editNoteTime 7) ∧
    AList.lk (handleSessionMessage c9CreateState 5 "jam 9 pagi hari ini"
      (100 * dayMs + 10 * hourMs) none none).sess.userState 5
      = some (Mode.confirmNextForReminder none "beli kopi" 9 0) := by
  exact ⟨by decide, by decide, by decide, by decide⟩

/-- A witness for the edit-note-time disambiguation theorem. -/
theorem c9_witness :
    AList.lk c9State.sess.userState 5 = some (Mode.editNoteTime 7) ∧
    parseIndoPrefer "jam 9 pagi hari ini" (100 * dayMs + 10 * hourMs) none none
      = .timePassedToday (100 * dayMs + 9 * hourMs) ∧
    handleSessionMessage c9State 5 "jam 9 pagi hari ini" (100 * dayMs + 10 * hourMs)
      none none = c9State :=
  ⟨by decide, by decide,
   (c9_edit_note_time_disambiguation c9State 5 7 "" "jam 9 pagi hari ini"
      (100 * dayMs + 10 * hourMs) none none (100 * dayMs + 9 * hourMs)).1
     (by decide) (by decide)⟩

/-- C10: an "ingatkan …" message naming an already-passed today-time
immediately persists a reminder row with a NULL time and enters the
confirmation state; an affirmative reply then inserts a *second* new row,
scheduled for the next day, and the first row stays persisted with its
NULL time (never updated or deleted). -/
theorem c10_ingatkan_two_rows (st : BotState) (chat : Int) (text : String) (now : Nat)
    (cn cr : Option Nat) (cand : Nat) (reply : String) (now2 : Nat) (cn2 cr2 : Option Nat)
    (hne : stripIngatkan text ≠ "")
    (hp : parseIndoPrefer text now cn cr = .timePassedToday cand)
    (haff : isAffirmative reply = true) :
    (handleIngatkan st chat text now cn cr).notes
      = st.notes ++ [⟨st.nextNoteId, chat, stripIngatkan text, none, false⟩] ∧
    AList.lk (handleIngatkan st chat text now cn cr).sess.userState chat
      = some (.confirmNextForReminder (some st.nextNoteId) (stripIngatkan text)
          (hhOf cand) (mmOf cand)) ∧
    (handleSessionMessage (handleIngatkan st chat text now cn cr) chat reply now2
      cn2 cr2).notes
      = st.notes ++
          [⟨st.nextNoteId, chat, stripIngatkan text, none, false⟩,
           ⟨st.nextNoteId + 1, chat, stripIngatkan text,
            some (startOfDay now2 + dayMs + hhOf cand * hourMs + mmOf cand * minuteMs),
            false⟩] ∧
    (⟨st.nextNoteId, chat, stripIngatkan text, none, false⟩ : Note)
      ∈ (handleSessionMessage (handleIngatkan st chat text now cn cr) chat reply now2
          cn2 cr2).notes := by
  set row1 : Note := ⟨st.nextNoteId, chat, stripIngatkan text, none, false⟩ with hrow1
  have hst1 : handleIngatkan st chat text now cn cr =
      { notes := st.notes ++ [row1],
        nextNoteId := st.nextNoteId + 1,
        sched := st.sched,
        sess := setState st.sess chat
          (.confirmNextForReminder (some st.nextNoteId) (stripIngatkan text)
            (hhOf cand) (mmOf cand)) now } := by
    rw [handleIngatkan]
    simp only [if_neg hne, hp, insertNote]
  have hlk1 : AList.lk (handleIngatkan st chat text now cn cr).sess.userState chat
      = some (.confirmNextForReminder (some st.nextNoteId) (stripIngatkan text)
          (hhOf cand) (mmOf cand)) := by
    rw [hst1]
    exact AList.lk_ins_self _ chat _
  refine ⟨by rw [hst1], hlk1, ?_, ?_⟩
  · rw [handleSessionMessage, hlk1]
    simp only [haff, if_true, insertNote, hst1, List.append_assoc, List.cons_append,
      List.nil_append]
  · rw [handleSessionMessage, hlk1]
    simp only [haff, if_true, insertNote, hst1]
    exact List.mem_append.mpr (Or.inl (List.mem_append.mpr (Or.inr
      (List.mem_singleton.mpr rfl))))

/-- The empty starting state for the C10 witness. -/
def c10State : BotState :=
  { notes := [], nextNoteId := 1, sched := initSched, sess := initSess }

/-- A witness for the ingatkan double-insert theorem at a concrete chat. -/
theorem c10_witness :
    stripIngatkan "ingatkan saya beli kopi jam 9 pagi hari ini" ≠ "" ∧
    parseIndoPrefer "ingatkan saya beli kopi jam 9 pagi hari ini"
      (100 * dayMs + 10 * hourMs) none none
      = .timePassedToday (100 * dayMs + 9 * hourMs) ∧
    isAffirmative "Ya" = true ∧
    (handleIngatkan c10State 5 "ingatkan saya beli kopi jam 9 pagi hari ini"
      (100 * dayMs + 10 * hourMs) none none).notes
      = [⟨1, 5, "beli kopi jam 9 pagi hari ini", none, false⟩] := by
  refine ⟨by decide, by decide, by decide, ?_⟩
  have h := (c10_ingatkan_two_rows c10State 5
    "ingatkan saya beli kopi jam 9 pagi hari ini" (100 * dayMs + 10 * hourMs) none none
    (100 * dayMs + 9 * hourMs) "Ya" (100 * dayMs + 10 * hourMs + minuteMs) none none
    (by decide) (by decide) (by decide)).1
  simpa using h

end TeleBot
